import Mathlib

/-!
Verification of the shadowYield private-pool ledger.

This file gives a shallow embedding of the two state-bearing layers of the
repository and proves the specification claims about them:

* the confidential ledger circuits of src/encrypted-ixs/src/lib.rs
  (init_pool_state, process_deposit, check_investment_needed,
  record_investment, record_yield, authorize_withdrawal, process_withdrawal);
* the public-side callback handlers of src/programs/ghost_pool/src/lib.rs
  (init_pool_state_callback, process_deposit_callback,
  check_investment_needed_callback).

Modelling conventions:

* Machine integers (u8, u64, u128) are embedded as Nat.  Inside the
  circuits every u64/u8 addition, subtraction and multiplication is
  checked: an operation that would overflow or underflow aborts the whole
  instruction (result none).  This follows the error-handling design of
  the repository, under which a subtraction that would underflow is a
  fatal, non-recoverable condition that must never wrap or clamp.
* MAX_DEPOSITS = 2 in the source, so the fixed deposit array
  [DepositEntry; 2] is embedded as two named fields deposit0, deposit1,
  and the source loops `for i in 0..MAX_DEPOSITS` are unrolled to the two
  iterations i = 0, i = 1, preserving the loop-carried accumulators
  (found_slot/slot_idx, found/found_idx/actual_balance).
* The Anchor callbacks receive the outcome of output.verify_output
  (external Arcium machinery, out of scope) as an Option parameter:
  `some o` is a verified output, `none` a failed verification.
  The source line `pool.state_nonce.wrapping_add(1)` on the u128 state
  nonce is embedded as addition modulo 2^128, exactly as the source
  spells it; the plain `+= 1` on the public total_deposits counter of
  process_deposit_callback is likewise embedded modulo 2^64 (release
  build wrapping semantics of u64).
* check_investment_needed and authorize_withdrawal take the pool state by
  value and return only a revealed decision, never a state: that they do
  not mutate the pool state is structural in the embedding, as in the
  source, where both circuits return only the revealed struct.
-/

/-- Maximum number of concurrent depositors (source constant). -/
def MAX_DEPOSITS : Nat := 2

/-- Checked u64 addition: aborts (none) on overflow. -/
def add64 (a b : Nat) : Option Nat :=
  if a + b < 2 ^ 64 then some (a + b) else none

/-- Checked u64 subtraction: aborts (none) on underflow. -/
def sub64 (a b : Nat) : Option Nat :=
  if b ≤ a then some (a - b) else none

/-- Checked u64 multiplication: aborts (none) on overflow. -/
def mul64 (a b : Nat) : Option Nat :=
  if a * b < 2 ^ 64 then some (a * b) else none

/-- Checked u8 addition: aborts (none) on overflow. -/
def add8 (a b : Nat) : Option Nat :=
  if a + b < 2 ^ 8 then some (a + b) else none

/-- Checked u8 subtraction: aborts (none) on underflow. -/
def sub8 (a b : Nat) : Option Nat :=
  if b ≤ a then some (a - b) else none

/-- Individual deposit entry in the private ledger
(struct DepositEntry of src/encrypted-ixs/src/lib.rs). -/
structure DepositEntry where
  password_hash : Nat
  principal : Nat
  last_yield_checkpoint : Nat
  is_active : Bool
deriving DecidableEq

/-- Private pool state (struct PoolState of src/encrypted-ixs/src/lib.rs).
The fixed array `deposits : [DepositEntry; MAX_DEPOSITS]` with
MAX_DEPOSITS = 2 is unrolled into the fields deposit0 (index 0) and
deposit1 (index 1). -/
structure PoolState where
  deposit0 : DepositEntry
  deposit1 : DepositEntry
  total_deposited : Nat
  total_invested : Nat
  pending_deposits : Nat
  yield_per_share : Nat
  deposit_count : Nat
deriving DecidableEq

/-- Investment decision revealed by check_investment_needed. -/
structure InvestmentDecision where
  should_invest : Bool
  amount_to_invest : Nat
deriving DecidableEq

/-- Withdrawal authorization revealed by authorize_withdrawal. -/
structure WithdrawalAuth where
  authorized : Bool
  amount : Nat
  found_idx : Nat
deriving DecidableEq

/-- init_pool_state: the all-zero pool state, every slot inactive. -/
def init_pool_state : PoolState :=
  { deposit0 := { password_hash := 0, principal := 0,
                  last_yield_checkpoint := 0, is_active := false }
    deposit1 := { password_hash := 0, principal := 0,
                  last_yield_checkpoint := 0, is_active := false }
    total_deposited := 0
    total_invested := 0
    pending_deposits := 0
    yield_per_share := 0
    deposit_count := 0 }

/-- process_deposit: scan for the first inactive slot (unrolled loop,
accumulators found_slot and slot_idx exactly as in the source); if one is
found, write the entry there and bump the three counters with checked
arithmetic; otherwise return the state unchanged. -/
def process_deposit (password_hash amount : Nat) (state : PoolState) :
    Option PoolState :=
  let found_slot := !state.deposit0.is_active || !state.deposit1.is_active
  let slot_idx : Nat :=
    if !state.deposit0.is_active then 0
    else if !state.deposit1.is_active then 1
    else 0
  if found_slot then
    let entry : DepositEntry :=
      { password_hash := password_hash, principal := amount,
        last_yield_checkpoint := state.yield_per_share, is_active := true }
    (add64 state.total_deposited amount).bind fun td =>
    (add64 state.pending_deposits amount).bind fun pd =>
    (add8 state.deposit_count 1).bind fun dc =>
    some { state with
      deposit0 := if slot_idx = 0 then entry else state.deposit0
      deposit1 := if slot_idx = 1 then entry else state.deposit1
      total_deposited := td
      pending_deposits := pd
      deposit_count := dc }
  else
    some state

/-- check_investment_needed: reveal whether pending_deposits has reached
the threshold, and the pending amount when it has.  No state output. -/
def check_investment_needed (state : PoolState) (threshold : Nat) :
    InvestmentDecision :=
  let should_invest := decide (state.pending_deposits ≥ threshold)
  { should_invest := should_invest
    amount_to_invest := if state.pending_deposits ≥ threshold
                        then state.pending_deposits else 0 }

/-- record_investment: total_invested += amount; pending_deposits -= amount,
both checked. -/
def record_investment (state : PoolState) (amount : Nat) : Option PoolState :=
  (add64 state.total_invested amount).bind fun ti =>
  (sub64 state.pending_deposits amount).bind fun pd =>
  some { state with total_invested := ti, pending_deposits := pd }

/-- record_yield: if total_deposited > 0, raise the global yield index by
floor(yield_amount * 1e9 / total_deposited) and add the yield to
total_deposited; otherwise return the state unchanged. -/
def record_yield (state : PoolState) (yield_amount : Nat) : Option PoolState :=
  if state.total_deposited > 0 then
    (mul64 yield_amount 1000000000).bind fun scaled =>
    let yield_per_token := scaled / state.total_deposited
    (add64 state.yield_per_share yield_per_token).bind fun yps =>
    (add64 state.total_deposited yield_amount).bind fun td =>
    some { state with yield_per_share := yps, total_deposited := td }
  else
    some state

/-- authorize_withdrawal: scan for the first active slot whose stored hash
equals the supplied hash (unrolled loop with accumulators found, found_idx
and actual_balance exactly as in the source); the balance of the matched
slot is principal + (principal * (yield_per_share - checkpoint)) / 1e9
with checked arithmetic.  Reveals the WithdrawalAuth; no state output. -/
def authorize_withdrawal (password_hash amount : Nat) (state : PoolState) :
    Option WithdrawalAuth :=
  let m0 := state.deposit0.is_active &&
            (state.deposit0.password_hash == password_hash)
  let m1 := state.deposit1.is_active &&
            (state.deposit1.password_hash == password_hash)
  if m0 then
    (sub64 state.yield_per_share state.deposit0.last_yield_checkpoint).bind
      fun yield_delta =>
    (mul64 state.deposit0.principal yield_delta).bind fun scaled =>
    (add64 state.deposit0.principal (scaled / 1000000000)).bind
      fun actual_balance =>
    let sufficient := decide (actual_balance ≥ amount)
    some { authorized := sufficient
           amount := if sufficient then amount else 0
           found_idx := 0 }
  else if m1 then
    (sub64 state.yield_per_share state.deposit1.last_yield_checkpoint).bind
      fun yield_delta =>
    (mul64 state.deposit1.principal yield_delta).bind fun scaled =>
    (add64 state.deposit1.principal (scaled / 1000000000)).bind
      fun actual_balance =>
    let sufficient := decide (actual_balance ≥ amount)
    some { authorized := sufficient
           amount := if sufficient then amount else 0
           found_idx := 1 }
  else
    some { authorized := false, amount := 0, found_idx := 0 }

/-- Loop body of process_withdrawal for the slot i with i == idx:
recompute the accrued-yield balance, subtract the withdrawal amount
(checked), reset the checkpoint, and deactivate the slot and decrement
deposit_count when the new balance is zero.  Returns the updated entry
and updated deposit_count. -/
def withdrawal_body (yps amount : Nat) (e : DepositEntry) (dc : Nat) :
    Option (DepositEntry × Nat) :=
  (sub64 yps e.last_yield_checkpoint).bind fun yield_delta =>
  (mul64 e.principal yield_delta).bind fun scaled =>
  (add64 e.principal (scaled / 1000000000)).bind fun current_balance =>
  (sub64 current_balance amount).bind fun new_balance =>
  if new_balance = 0 then
    (sub8 dc 1).bind fun dc2 =>
    some ({ e with principal := new_balance,
                   last_yield_checkpoint := yps,
                   is_active := false }, dc2)
  else
    some ({ e with principal := new_balance,
                   last_yield_checkpoint := yps }, dc)

/-- process_withdrawal: unrolled `for i in 0..MAX_DEPOSITS` loop whose body
fires only for i == idx, followed by the unconditional
total_deposited -= amount (checked). -/
def process_withdrawal (state : PoolState) (idx amount : Nat) :
    Option PoolState :=
  (if 0 = idx then
    (withdrawal_body state.yield_per_share amount state.deposit0
        state.deposit_count).bind fun r =>
    some { state with deposit0 := r.1, deposit_count := r.2 }
  else
    some state).bind fun st1 =>
  (if 1 = idx then
    (withdrawal_body st1.yield_per_share amount st1.deposit1
        st1.deposit_count).bind fun r =>
    some { st1 with deposit1 := r.1, deposit_count := r.2 }
  else
    some st1).bind fun st2 =>
  (sub64 st2.total_deposited amount).bind fun td =>
  some { st2 with total_deposited := td }

/-- The entry stored at slot index i (i = 0 or 1). -/
def entryAt (state : PoolState) (i : Nat) : DepositEntry :=
  if i = 0 then state.deposit0 else state.deposit1

/-- The accrued yield of an entry under the current yield index of the
state: floor(principal * (yield_per_share - checkpoint) / 1e9). -/
def specAccrued (state : PoolState) (e : DepositEntry) : Nat :=
  e.principal * (state.yield_per_share - e.last_yield_checkpoint) / 1000000000

/-- The current balance of an entry: principal plus accrued yield. -/
def specBalance (state : PoolState) (e : DepositEntry) : Nat :=
  e.principal + specAccrued state e

/-- The checked arithmetic of the accrued-yield balance computation for an
entry stays within u64 bounds, and the checkpoint does not exceed the
global yield index. -/
abbrev slotOk (state : PoolState) (e : DepositEntry) : Prop :=
  e.last_yield_checkpoint ≤ state.yield_per_share ∧
  e.principal * (state.yield_per_share - e.last_yield_checkpoint) < 2 ^ 64 ∧
  specBalance state e < 2 ^ 64

/-- Whether an entry is an active slot storing the given password hash. -/
def matchesHash (password_hash : Nat) (e : DepositEntry) : Bool :=
  e.is_active && (e.password_hash == password_hash)

/-- Index of the first active slot storing the given hash, if any. -/
def firstMatch (password_hash : Nat) (state : PoolState) : Option Nat :=
  if matchesHash password_hash state.deposit0 then some 0
  else if matchesHash password_hash state.deposit1 then some 1
  else none

/-- Number of active slots of a pool state. -/
def activeCount (state : PoolState) : Nat :=
  (if state.deposit0.is_active then 1 else 0) +
  (if state.deposit1.is_active then 1 else 0)

/-- The deposit-count invariant: deposit_count equals the number of
active slots. -/
abbrev countInv (state : PoolState) : Prop :=
  state.deposit_count = activeCount state

/-- Public custody account (struct GhostPool of
src/programs/ghost_pool/src/lib.rs), restricted to the fields read or
written by the verified callback handlers; the remaining fields (bump
seeds, authority and mint keys, investment threshold, timestamps, Kamino
references) are configuration or identity data untouched by them.
encrypted_state stands for the [[u8; 32]; 13] ciphertext blob. -/
structure GhostPool where
  state_nonce : Nat
  encrypted_state : List Nat
  total_deposits : Nat
  total_withdrawals : Nat
  pending_investment_amount : Nat
deriving DecidableEq

/-- Error codes of the ghost_pool program. -/
inductive ErrorCode where
  | AbortedComputation
  | ClusterNotSet
  | WithdrawalUnauthorized
  | NoPendingInvestment
  | Unauthorized
deriving DecidableEq

/-- init_pool_state_callback: on a verified output, overwrite the stored
ciphertext blob and advance the state nonce with wrapping_add(1) on u128;
on a failed verification, abort with AbortedComputation (the transaction
reverts, so the account is left unchanged). -/
def init_pool_state_callback (pool : GhostPool)
    (verified : Option (List Nat)) : Except ErrorCode GhostPool :=
  match verified with
  | none => Except.error ErrorCode.AbortedComputation
  | some ciphertexts =>
    Except.ok { pool with
      encrypted_state := ciphertexts
      state_nonce := (pool.state_nonce + 1) % 2 ^ 128 }

/-- process_deposit_callback: same blob overwrite and wrapping nonce
advance as init_pool_state_callback, plus total_deposits += 1 on the
public u64 counter. -/
def process_deposit_callback (pool : GhostPool)
    (verified : Option (List Nat)) : Except ErrorCode GhostPool :=
  match verified with
  | none => Except.error ErrorCode.AbortedComputation
  | some ciphertexts =>
    Except.ok { pool with
      encrypted_state := ciphertexts
      state_nonce := (pool.state_nonce + 1) % 2 ^ 128
      total_deposits := (pool.total_deposits + 1) % 2 ^ 64 }

/-- check_investment_needed_callback: on a verified revealed decision
(field_0 = should_invest, field_1 = amount_to_invest), store the amount
into pending_investment_amount when the flag is true AND the amount is
positive; otherwise leave the pool unchanged.  Failed verification aborts
with AbortedComputation. -/
def check_investment_needed_callback (pool : GhostPool)
    (verified : Option (Bool × Nat)) : Except ErrorCode GhostPool :=
  match verified with
  | none => Except.error ErrorCode.AbortedComputation
  | some decision =>
    if decision.1 && decide (decision.2 > 0) then
      Except.ok { pool with pending_investment_amount := decision.2 }
    else
      Except.ok pool

/-- A concrete reachable pool state used by the witnesses: one active
depositor with password hash 77 and principal 100 at slot 0. -/
def sampleState : PoolState :=
  { deposit0 := { password_hash := 77, principal := 100,
                  last_yield_checkpoint := 0, is_active := true }
    deposit1 := { password_hash := 0, principal := 0,
                  last_yield_checkpoint := 0, is_active := false }
    total_deposited := 100
    total_invested := 0
    pending_deposits := 100
    yield_per_share := 0
    deposit_count := 1 }

/-- A concrete public custody account used by the callback witnesses. -/
def samplePool : GhostPool :=
  { state_nonce := 7
    encrypted_state := [1, 2, 3]
    total_deposits := 1
    total_withdrawals := 0
    pending_investment_amount := 5 }

/-- A public custody account whose u128 state nonce sits at the wrapping
boundary 2^128 - 1. -/
def poolAtNonceMax : GhostPool :=
  { state_nonce := 2 ^ 128 - 1
    encrypted_state := []
    total_deposits := 0
    total_withdrawals := 0
    pending_investment_amount := 0 }

/- ------------------------------------------------------------------ -/
/- Helper lemmas about the checked machine arithmetic.                 -/
/- ------------------------------------------------------------------ -/

theorem add64_pos {a b : Nat} (h : a + b < 2 ^ 64) : add64 a b = some (a + b) :=
  if_pos h

theorem sub64_pos {a b : Nat} (h : b ≤ a) : sub64 a b = some (a - b) :=
  if_pos h

theorem mul64_pos {a b : Nat} (h : a * b < 2 ^ 64) : mul64 a b = some (a * b) :=
  if_pos h

theorem add8_pos {a b : Nat} (h : a + b < 2 ^ 8) : add8 a b = some (a + b) :=
  if_pos h

theorem sub8_pos {a b : Nat} (h : b ≤ a) : sub8 a b = some (a - b) :=
  if_pos h

theorem add64_eq_some {a b c : Nat} :
    add64 a b = some c ↔ a + b < 2 ^ 64 ∧ c = a + b := by
  unfold add64; split <;> simp_all [eq_comm]

theorem sub64_eq_some {a b c : Nat} :
    sub64 a b = some c ↔ b ≤ a ∧ c = a - b := by
  unfold sub64; split <;> simp_all [eq_comm]

theorem mul64_eq_some {a b c : Nat} :
    mul64 a b = some c ↔ a * b < 2 ^ 64 ∧ c = a * b := by
  unfold mul64; split <;> simp_all [eq_comm]

theorem add8_eq_some {a b c : Nat} :
    add8 a b = some c ↔ a + b < 2 ^ 8 ∧ c = a + b := by
  unfold add8; split <;> simp_all [eq_comm]

theorem sub8_eq_some {a b c : Nat} :
    sub8 a b = some c ↔ b ≤ a ∧ c = a - b := by
  unfold sub8; split <;> simp_all [eq_comm]

theorem add64_eq_none {a b : Nat} : add64 a b = none ↔ ¬ a + b < 2 ^ 64 := by
  unfold add64; split <;> simp_all

theorem sub64_eq_none {a b : Nat} : sub64 a b = none ↔ ¬ b ≤ a := by
  unfold sub64; split <;> simp_all

theorem mul64_eq_none {a b : Nat} : mul64 a b = none ↔ ¬ a * b < 2 ^ 64 := by
  unfold mul64; split <;> simp_all

/- ------------------------------------------------------------------ -/
/- Helper lemmas about the process_withdrawal loop body.               -/
/- ------------------------------------------------------------------ -/

/-- When the balance arithmetic stays in bounds and the amount does not
exceed the slot balance, the loop body of process_withdrawal computes the
updated entry and deposit count in closed form. -/
theorem withdrawal_body_pos {yps amt : Nat} {e : DepositEntry} {dc : Nat}
    (hc : e.last_yield_checkpoint ≤ yps)
    (hm : e.principal * (yps - e.last_yield_checkpoint) < 2 ^ 64)
    (hb : e.principal +
      e.principal * (yps - e.last_yield_checkpoint) / 1000000000 < 2 ^ 64)
    (ha : amt ≤ e.principal +
      e.principal * (yps - e.last_yield_checkpoint) / 1000000000)
    (hdc : e.principal +
      e.principal * (yps - e.last_yield_checkpoint) / 1000000000 = amt →
      1 ≤ dc) :
    withdrawal_body yps amt e dc = some
      ({ e with
          principal := e.principal +
            e.principal * (yps - e.last_yield_checkpoint) / 1000000000 - amt
          last_yield_checkpoint := yps
          is_active := if e.principal +
              e.principal * (yps - e.last_yield_checkpoint) / 1000000000 - amt
              = 0 then false else e.is_active },
       if e.principal +
           e.principal * (yps - e.last_yield_checkpoint) / 1000000000 - amt
           = 0 then dc - 1 else dc) := by
  simp only [withdrawal_body, sub64_pos hc, Option.some_bind, mul64_pos hm,
    add64_pos hb, sub64_pos ha]
  by_cases hz : e.principal +
      e.principal * (yps - e.last_yield_checkpoint) / 1000000000 - amt = 0
  · have h1 : 1 ≤ dc := hdc (by omega)
    simp only [hz, if_pos rfl, sub8_pos h1, Option.some_bind, if_true]
  · simp only [if_neg hz]

/-- When the amount exceeds the slot balance, the loop body of
process_withdrawal aborts. -/
theorem withdrawal_body_underflow {yps amt : Nat} {e : DepositEntry}
    {dc : Nat}
    (h : e.principal +
      e.principal * (yps - e.last_yield_checkpoint) / 1000000000 < amt) :
    withdrawal_body yps amt e dc = none := by
  simp only [withdrawal_body]
  cases hyd : sub64 yps e.last_yield_checkpoint with
  | none => simp
  | some yd =>
    obtain ⟨hc, rfl⟩ := sub64_eq_some.mp hyd
    simp only [Option.some_bind]
    cases hsc : mul64 e.principal (yps - e.last_yield_checkpoint) with
    | none => simp
    | some sc =>
      obtain ⟨hm, rfl⟩ := mul64_eq_some.mp hsc
      simp only [Option.some_bind]
      cases hcb : add64 e.principal
          (e.principal * (yps - e.last_yield_checkpoint) / 1000000000) with
      | none => simp
      | some cb =>
        obtain ⟨hb, rfl⟩ := add64_eq_some.mp hcb
        simp only [Option.some_bind]
        have : sub64 (e.principal +
            e.principal * (yps - e.last_yield_checkpoint) / 1000000000) amt
            = none := sub64_eq_none.mpr (by omega)
        simp [this]

/-- Whenever the loop body of process_withdrawal succeeds, it either
deactivated the slot and decremented the deposit count by one, or kept
both the activity flag and the count unchanged. -/
theorem withdrawal_body_some_inv {yps amt dc : Nat} {e : DepositEntry}
    {r : DepositEntry × Nat} (h : withdrawal_body yps amt e dc = some r) :
    (r.1.is_active = false ∧ 1 ≤ dc ∧ r.2 = dc - 1) ∨
    (r.1.is_active = e.is_active ∧ r.2 = dc) := by
  simp only [withdrawal_body] at h
  cases hyd : sub64 yps e.last_yield_checkpoint with
  | none => simp [hyd] at h
  | some yd =>
    simp only [hyd, Option.some_bind] at h
    cases hsc : mul64 e.principal yd with
    | none => simp [hsc] at h
    | some sc =>
      simp only [hsc, Option.some_bind] at h
      cases hcb : add64 e.principal (sc / 1000000000) with
      | none => simp [hcb] at h
      | some cb =>
        simp only [hcb, Option.some_bind] at h
        cases hnb : sub64 cb amt with
        | none => simp [hnb] at h
        | some nb =>
          simp only [hnb, Option.some_bind] at h
          by_cases hz : nb = 0
          · simp only [hz, if_pos rfl, if_true] at h
            cases hdc : sub8 dc 1 with
            | none => simp [hdc] at h
            | some dc2 =>
              obtain ⟨h1, rfl⟩ := sub8_eq_some.mp hdc
              simp only [hdc, Option.some_bind, Option.some.injEq] at h
              left
              rw [← h]
              exact ⟨rfl, h1, rfl⟩
          · simp only [if_neg hz, Option.some.injEq] at h
            right
            rw [← h]
            exact ⟨rfl, rfl⟩

/-- Helper for the underflow claim: record_investment aborts when the
amount exceeds pending_deposits, whatever happens to total_invested. -/
theorem record_investment_underflow (st : PoolState) (amt : Nat)
    (h : st.pending_deposits < amt) : record_investment st amt = none := by
  simp only [record_investment]
  cases hti : add64 st.total_invested amt
  · simp
  · simp only [Option.some_bind]
    have : sub64 st.pending_deposits amt = none := by
      unfold sub64; rw [if_neg (by omega)]
    simp [this]

/- ------------------------------------------------------------------ -/
/- Claim theorems.                                                     -/
/- ------------------------------------------------------------------ -/

/-- C1: authorize_withdrawal scans all slots and, at the first active slot
whose stored password_hash equals the supplied hash, computes the balance
principal + floor(principal * (yield_per_share - yield_checkpoint) / 1e9);
it reveals authorized = found AND balance at least amount, reveals the
amount echoed back only when authorized and 0 otherwise, and reveals
found_idx as the first matching index (0 when nothing matches, the initial
accumulator value).  The pool state is left unchanged: the circuit returns
only the revealed WithdrawalAuth.  Hypotheses: the balance arithmetic of
both slots stays within u64 bounds. -/
theorem authorize_withdrawal_spec (hash amt : Nat) (st : PoolState)
    (h0 : slotOk st st.deposit0) (h1 : slotOk st st.deposit1) :
    authorize_withdrawal hash amt st = some
      { authorized := (firstMatch hash st).isSome &&
          decide (amt ≤ specBalance st (entryAt st ((firstMatch hash st).getD 0)))
        amount := if (firstMatch hash st).isSome &&
            decide (amt ≤ specBalance st (entryAt st ((firstMatch hash st).getD 0)))
          then amt else 0
        found_idx := (firstMatch hash st).getD 0 } := by
  obtain ⟨hc0, hm0, hb0⟩ := h0
  obtain ⟨hc1, hm1, hb1⟩ := h1
  simp only [specBalance, specAccrued] at hb0 hb1 ⊢
  cases hA : st.deposit0.is_active && (st.deposit0.password_hash == hash)
  · cases hB : st.deposit1.is_active && (st.deposit1.password_hash == hash)
    · simp [authorize_withdrawal, hA, hB, firstMatch, matchesHash]
    · simp [authorize_withdrawal, hA, hB, firstMatch, matchesHash,
        sub64_pos hc1, mul64_pos hm1, add64_pos hb1, entryAt,
        specBalance, specAccrued, ge_iff_le]
  · simp [authorize_withdrawal, hA, firstMatch, matchesHash,
      sub64_pos hc0, mul64_pos hm0, add64_pos hb0, entryAt,
      specBalance, specAccrued, ge_iff_le]

/-- C1 witness: with one active depositor (hash 77, principal 100, no
accrued yield) a withdrawal of 50 is authorized at index 0 and the amount
is echoed back. -/
theorem authorize_withdrawal_spec_witness :
    authorize_withdrawal 77 50 sampleState =
      some { authorized := true, amount := 50, found_idx := 0 } :=
  (authorize_withdrawal_spec 77 50 sampleState (by decide) (by decide)).trans
    (by decide)

/-- C2: for idx < MAX_DEPOSITS and amount not exceeding the current
balance of slot idx (principal plus accrued yield), process_withdrawal
sets the principal of that slot to balance - amount, resets its
yield checkpoint to yield_per_share, deactivates the slot and decrements
deposit_count exactly when the new balance is 0, and decrements
total_deposited by amount unconditionally.  Hypotheses: the balance
arithmetic stays within u64 bounds, deposit_count is positive when the
slot empties (its u8 decrement would otherwise abort), and amount does
not exceed total_deposited (the unconditional u64 subtraction would
otherwise abort). -/
theorem process_withdrawal_spec (st : PoolState) (idx amt : Nat)
    (hidx : idx < MAX_DEPOSITS)
    (hok : slotOk st (entryAt st idx))
    (hamt : amt ≤ specBalance st (entryAt st idx))
    (hdc : specBalance st (entryAt st idx) = amt → 1 ≤ st.deposit_count)
    (htd : amt ≤ st.total_deposited) :
    process_withdrawal st idx amt =
      some { st with
        deposit0 := if idx = 0 then
          { st.deposit0 with
              principal := specBalance st st.deposit0 - amt
              last_yield_checkpoint := st.yield_per_share
              is_active := if specBalance st st.deposit0 - amt = 0 then false
                           else st.deposit0.is_active }
          else st.deposit0
        deposit1 := if idx = 1 then
          { st.deposit1 with
              principal := specBalance st st.deposit1 - amt
              last_yield_checkpoint := st.yield_per_share
              is_active := if specBalance st st.deposit1 - amt = 0 then false
                           else st.deposit1.is_active }
          else st.deposit1
        deposit_count := if specBalance st (entryAt st idx) - amt = 0
                         then st.deposit_count - 1 else st.deposit_count
        total_deposited := st.total_deposited - amt } := by
  rw [MAX_DEPOSITS] at hidx
  obtain ⟨hc, hm, hb⟩ := hok
  simp only [specBalance, specAccrued] at hb hamt hdc ⊢
  interval_cases idx
  · rw [entryAt, if_pos rfl] at hc hm hb hamt hdc
    simp only [process_withdrawal, if_pos (rfl : (0 : Nat) = 0),
      if_neg (by omega : ¬ (1 : Nat) = 0),
      withdrawal_body_pos hc hm hb hamt hdc, Option.some_bind,
      sub64_pos htd, entryAt]
    simp [sub64_pos htd]
  · rw [entryAt, if_neg (by omega : ¬ (1 : Nat) = 0)] at hc hm hb hamt hdc
    simp only [process_withdrawal, if_neg (by omega : ¬ (0 : Nat) = 1),
      if_pos (rfl : (1 : Nat) = 1), Option.some_bind,
      withdrawal_body_pos hc hm hb hamt hdc,
      sub64_pos htd, entryAt]
    simp [sub64_pos htd]

/-- C2 witness: withdrawing the full balance 100 from slot 0 of the sample
state empties and deactivates the slot, drops deposit_count from 1 to 0
and total_deposited from 100 to 0. -/
theorem process_withdrawal_spec_witness :
    process_withdrawal sampleState 0 100 =
      some { deposit0 := { password_hash := 77, principal := 0,
                           last_yield_checkpoint := 0, is_active := false }
             deposit1 := { password_hash := 0, principal := 0,
                           last_yield_checkpoint := 0, is_active := false }
             total_deposited := 0
             total_invested := 0
             pending_deposits := 100
             yield_per_share := 0
             deposit_count := 0 } :=
  (process_withdrawal_spec sampleState 0 100 (by decide) (by decide)
    (by decide) (by decide) (by decide)).trans (by decide)

/-- C3: when total_deposited > 0, record_yield increases yield_per_share
by exactly floor(yield_amount * 1e9 / total_deposited) and then increases
total_deposited by yield_amount, changing nothing else; when
total_deposited = 0 it returns the state completely unchanged (the yield
is dropped).  Hypotheses: the three checked u64 operations stay within
bounds. -/
theorem record_yield_spec (st : PoolState) (y : Nat)
    (h1 : y * 1000000000 < 2 ^ 64)
    (h2 : st.yield_per_share + y * 1000000000 / st.total_deposited < 2 ^ 64)
    (h3 : st.total_deposited + y < 2 ^ 64) :
    record_yield st y =
      if st.total_deposited > 0 then
        some { st with
          yield_per_share :=
            st.yield_per_share + y * 1000000000 / st.total_deposited
          total_deposited := st.total_deposited + y }
      else some st := by
  by_cases htd : st.total_deposited > 0
  · simp only [record_yield, if_pos htd, mul64_pos h1, Option.some_bind,
      add64_pos h2, add64_pos h3]
  · simp only [record_yield, if_neg htd]

/-- C3 witness: recording 40 of yield over 100 deposited raises the
1e9-scaled yield index by 400000000 and total_deposited to 140. -/
theorem record_yield_spec_witness :
    record_yield sampleState 40 =
      some { sampleState with
        yield_per_share := 400000000
        total_deposited := 140 } :=
  (record_yield_spec sampleState 40 (by decide) (by decide)
    (by decide)).trans (by decide)

/-- C4: if at least one slot is inactive, process_deposit writes the
deposit into the inactive slot of lowest index — storing the supplied
hash, principal = amount, yield_checkpoint = the current yield_per_share,
marked active — and increments total_deposited and pending_deposits by
amount and deposit_count by one; if every slot is active it returns the
state completely unchanged.  Hypotheses: the three checked counter
increments stay within u64/u8 bounds. -/
theorem process_deposit_spec (hash amt : Nat) (st : PoolState)
    (h1 : st.total_deposited + amt < 2 ^ 64)
    (h2 : st.pending_deposits + amt < 2 ^ 64)
    (h3 : st.deposit_count + 1 < 2 ^ 8) :
    process_deposit hash amt st =
      if st.deposit0.is_active = false then
        some { st with
          deposit0 := { password_hash := hash, principal := amt,
                        last_yield_checkpoint := st.yield_per_share,
                        is_active := true }
          total_deposited := st.total_deposited + amt
          pending_deposits := st.pending_deposits + amt
          deposit_count := st.deposit_count + 1 }
      else if st.deposit1.is_active = false then
        some { st with
          deposit1 := { password_hash := hash, principal := amt,
                        last_yield_checkpoint := st.yield_per_share,
                        is_active := true }
          total_deposited := st.total_deposited + amt
          pending_deposits := st.pending_deposits + amt
          deposit_count := st.deposit_count + 1 }
      else some st := by
  cases hA : st.deposit0.is_active <;> cases hB : st.deposit1.is_active <;>
    simp only [process_deposit, hA, hB, Bool.not_true, Bool.not_false,
      Bool.false_or, Bool.true_or, Bool.or_self, if_true, if_false,
      add64_pos h1, add64_pos h2, add8_pos h3, Option.some_bind,
      Bool.false_eq_true, Bool.true_eq_false, reduceIte] <;> simp

/-- C4 witness: depositing 50 under hash 9 into the sample state (slot 0
occupied, slot 1 free) fills slot 1 and bumps the counters. -/
theorem process_deposit_spec_witness :
    process_deposit 9 50 sampleState =
      some { sampleState with
        deposit1 := { password_hash := 9, principal := 50,
                      last_yield_checkpoint := 0, is_active := true }
        total_deposited := 150
        pending_deposits := 150
        deposit_count := 2 } :=
  (process_deposit_spec 9 50 sampleState (by decide) (by decide)
    (by decide)).trans (by decide)

/-- C5: a subtraction that would underflow is fatal and never wraps or
clamps: record_investment with amount > pending_deposits aborts the whole
instruction (returns none, producing no wrapped pending_deposits), and
process_withdrawal with amount > the current balance of slot idx aborts
(returns none, producing no wrapped principal or total_deposited). -/
theorem underflow_aborts (st : PoolState) (amt idx : Nat) :
    (st.pending_deposits < amt → record_investment st amt = none) ∧
    (idx < MAX_DEPOSITS → specBalance st (entryAt st idx) < amt →
      process_withdrawal st idx amt = none) := by
  constructor
  · exact record_investment_underflow st amt
  · intro hidx hlt
    rw [MAX_DEPOSITS] at hidx
    simp only [specBalance, specAccrued] at hlt
    interval_cases idx
    · rw [entryAt, if_pos rfl] at hlt
      simp [process_withdrawal, if_pos (rfl : (0 : Nat) = 0),
        if_neg (by omega : ¬ (1 : Nat) = 0), withdrawal_body_underflow hlt]
    · rw [entryAt, if_neg (by omega : ¬ (1 : Nat) = 0)] at hlt
      simp [process_withdrawal, if_neg (by omega : ¬ (0 : Nat) = 1),
        if_pos (rfl : (1 : Nat) = 1), withdrawal_body_underflow hlt]

/-- C5 witness: investing 500 against 100 pending aborts, and withdrawing
101 against a slot balance of 100 aborts. -/
theorem underflow_aborts_witness :
    record_investment sampleState 500 = none ∧
    process_withdrawal sampleState 0 101 = none :=
  ⟨(underflow_aborts sampleState 500 0).1 (by decide),
   (underflow_aborts sampleState 101 0).2 (by decide) (by decide)⟩

/-- C6 (amended): on every accepted callback carrying a re-encrypted state
blob, init_pool_state_callback and process_deposit_callback overwrite the
stored ciphertext blob with the result and advance the state version
counter by one modulo 2^128 (the source uses u128 wrapping_add(1), so at
2^128 - 1 the counter wraps to 0 instead of increasing by exactly one);
process_deposit_callback additionally bumps the public total_deposits
counter.  When verification fails, both callbacks abort with
AbortedComputation and no field changes. -/
theorem callback_reseal_spec :
    (∀ pool cts, init_pool_state_callback pool (some cts) =
      Except.ok { pool with
        encrypted_state := cts
        state_nonce := (pool.state_nonce + 1) % 2 ^ 128 }) ∧
    (∀ pool, init_pool_state_callback pool none =
      Except.error ErrorCode.AbortedComputation) ∧
    (∀ pool cts, process_deposit_callback pool (some cts) =
      Except.ok { pool with
        encrypted_state := cts
        state_nonce := (pool.state_nonce + 1) % 2 ^ 128
        total_deposits := (pool.total_deposits + 1) % 2 ^ 64 }) ∧
    (∀ pool, process_deposit_callback pool none =
      Except.error ErrorCode.AbortedComputation) :=
  ⟨fun _ _ => rfl, fun _ => rfl, fun _ _ => rfl, fun _ => rfl⟩

/-- C6 counterexample: at state_nonce = 2^128 - 1 an accepted
init_pool_state_callback sets the counter to 0, which is not the old
value incremented by exactly one. -/
theorem callback_nonce_wrap_cex :
    init_pool_state_callback poolAtNonceMax (some [9]) =
      Except.ok { poolAtNonceMax with
        encrypted_state := [9]
        state_nonce := 0 } ∧
    ¬ (0 = poolAtNonceMax.state_nonce + 1) :=
  ⟨rfl, by decide⟩

/-- C7: the invariant deposit_count = number of active slots holds in the
initial state and is preserved by process_deposit, record_investment,
record_yield and every successful process_withdrawal whose index names an
active slot and whose amount does not exceed that slot balance
(check_investment_needed and authorize_withdrawal return only revealed
values and no state, so they cannot disturb it). -/
theorem count_invariant_preserved :
    countInv init_pool_state ∧
    (∀ hash amt st st2, countInv st →
      process_deposit hash amt st = some st2 → countInv st2) ∧
    (∀ st amt st2, countInv st →
      record_investment st amt = some st2 → countInv st2) ∧
    (∀ st y st2, countInv st →
      record_yield st y = some st2 → countInv st2) ∧
    (∀ st idx amt st2, countInv st → idx < MAX_DEPOSITS →
      (entryAt st idx).is_active = true →
      amt ≤ specBalance st (entryAt st idx) →
      process_withdrawal st idx amt = some st2 → countInv st2) := by
  refine ⟨by decide, ?_, ?_, ?_, ?_⟩
  · intro hash amt st st2 hinv heq
    cases hA : st.deposit0.is_active <;> cases hB : st.deposit1.is_active <;>
      simp [process_deposit, hA, hB, Option.bind_eq_some, add64_eq_some,
        add8_eq_some] at heq
    · obtain ⟨td, ⟨h1, rfl⟩, pd, ⟨h2, rfl⟩, dc, ⟨h3, rfl⟩, rfl⟩ := heq
      simp [countInv, activeCount, hA, hB] at hinv ⊢
      omega
    · obtain ⟨td, ⟨h1, rfl⟩, pd, ⟨h2, rfl⟩, dc, ⟨h3, rfl⟩, rfl⟩ := heq
      simp [countInv, activeCount, hA, hB] at hinv ⊢
      omega
    · obtain ⟨td, ⟨h1, rfl⟩, pd, ⟨h2, rfl⟩, dc, ⟨h3, rfl⟩, rfl⟩ := heq
      simp [countInv, activeCount, hA, hB] at hinv ⊢
      omega
    · subst heq
      exact hinv
  · intro st amt st2 hinv heq
    simp [record_investment, Option.bind_eq_some, add64_eq_some,
      sub64_eq_some] at heq
    obtain ⟨ti, ⟨h1, rfl⟩, pd, ⟨h2, rfl⟩, rfl⟩ := heq
    simpa [countInv, activeCount] using hinv
  · intro st y st2 hinv heq
    by_cases htd : st.total_deposited > 0
    · simp [record_yield, htd, Option.bind_eq_some, add64_eq_some,
        mul64_eq_some] at heq
      obtain ⟨sc, ⟨h1, rfl⟩, yps, ⟨h2, rfl⟩, td, ⟨h3, rfl⟩, rfl⟩ := heq
      simpa [countInv, activeCount] using hinv
    · simp [record_yield, htd] at heq
      subst heq
      exact hinv
  · intro st idx amt st2 hinv hidx hact hamt heq
    rw [MAX_DEPOSITS] at hidx
    interval_cases idx
    · rw [entryAt, if_pos rfl] at hact
      cases hwb : withdrawal_body st.yield_per_share amt st.deposit0
          st.deposit_count with
      | none =>
        simp [process_withdrawal, if_pos (rfl : (0 : Nat) = 0),
          if_neg (by omega : ¬ (1 : Nat) = 0), hwb] at heq
      | some r =>
        simp [process_withdrawal, hwb] at heq
        cases hsub : sub64 st.total_deposited amt with
        | none => simp [hsub] at heq
        | some td =>
          rw [hsub] at heq
          simp only [Option.some_bind, Option.some.injEq] at heq
          subst heq
          rcases withdrawal_body_some_inv hwb with ⟨hi, hd, hr2⟩ | ⟨hi, hr2⟩ <;>
            simp [countInv, activeCount, hi, hr2, hact] at hinv ⊢ <;> omega
    · rw [entryAt, if_neg (by omega : ¬ (1 : Nat) = 0)] at hact
      cases hwb : withdrawal_body st.yield_per_share amt st.deposit1
          st.deposit_count with
      | none =>
        simp [process_withdrawal, if_neg (by omega : ¬ (0 : Nat) = 1),
          if_pos (rfl : (1 : Nat) = 1), hwb] at heq
      | some r =>
        simp [process_withdrawal, hwb] at heq
        cases hsub : sub64 st.total_deposited amt with
        | none => simp [hsub] at heq
        | some td =>
          rw [hsub] at heq
          simp only [Option.some_bind, Option.some.injEq] at heq
          subst heq
          rcases withdrawal_body_some_inv hwb with ⟨hi, hd, hr2⟩ | ⟨hi, hr2⟩ <;>
            simp [countInv, activeCount, hi, hr2, hact] at hinv ⊢ <;> omega

/-- C7 witness: the invariant holds for the state reached from the sample
state (one active slot, deposit_count 1) by record_investment of 50. -/
theorem count_invariant_preserved_witness :
    countInv { sampleState with
      total_invested := 50
      pending_deposits := 50 } :=
  count_invariant_preserved.2.2.1 sampleState 50
    { sampleState with total_invested := 50, pending_deposits := 50 }
    (by decide) (by decide)

/-- C8: check_investment_needed reveals
should_invest = (pending_deposits at least threshold) — inclusive at the
boundary, so pending_deposits equal to the threshold yields true — and
reveals amount_to_invest = pending_deposits when the flag is true and 0
otherwise.  It returns only the revealed decision and no state, so it
mutates nothing. -/
theorem check_investment_needed_spec :
    (∀ st thr, check_investment_needed st thr =
      { should_invest := decide (thr ≤ st.pending_deposits)
        amount_to_invest :=
          if thr ≤ st.pending_deposits then st.pending_deposits else 0 }) ∧
    (∀ st, (check_investment_needed st st.pending_deposits).should_invest
      = true) := by
  constructor
  · intro st thr
    simp [check_investment_needed, ge_iff_le]
  · intro st
    simp [check_investment_needed]

/-- C9 (amended): on a verified check-investment-needed result,
check_investment_needed_callback stores the revealed amount into
pending_investment_amount when the revealed flag is true AND the amount
is positive; it is a no-op on the pool state when the flag is false, and
also — unlike the unamended claim — when the flag is true with a zero
amount. -/
theorem check_investment_cb_spec :
    (∀ pool amt, 0 < amt →
      check_investment_needed_callback pool (some (true, amt)) =
        Except.ok { pool with pending_investment_amount := amt }) ∧
    (∀ pool amt,
      check_investment_needed_callback pool (some (false, amt)) =
        Except.ok pool) ∧
    (∀ pool,
      check_investment_needed_callback pool (some (true, 0)) =
        Except.ok pool) := by
  refine ⟨?_, ?_, ?_⟩
  · intro pool amt h
    simp [check_investment_needed_callback, h]
  · intro pool amt
    simp [check_investment_needed_callback]
  · intro pool
    simp [check_investment_needed_callback]

/-- C9 witness: a verified (true, 42) decision stores 42 into
pending_investment_amount of the sample pool. -/
theorem check_investment_cb_spec_witness :
    check_investment_needed_callback samplePool (some (true, 42)) =
      Except.ok { samplePool with pending_investment_amount := 42 } :=
  check_investment_cb_spec.1 samplePool 42 (by decide)

/-- C9 counterexample: with a true flag and revealed amount 0, the
callback leaves pending_investment_amount at its old value 5 instead of
storing the revealed amount, so storing does not happen whenever the
flag is true. -/
theorem check_investment_cb_cex :
    check_investment_needed_callback samplePool (some (true, 0)) =
      Except.ok samplePool ∧
    ¬ samplePool.pending_investment_amount = 0 :=
  ⟨rfl, by decide⟩

/-- C10: for every idx at or beyond MAX_DEPOSITS, process_withdrawal
leaves every deposit slot and deposit_count unchanged (the loop body
never fires) but still decrements total_deposited by amount, silently
shrinking the aggregate total without debiting any depositor.
Hypothesis: amount does not exceed total_deposited, so the unconditional
checked subtraction succeeds. -/
theorem out_of_range_withdrawal_spec (st : PoolState) (idx amt : Nat)
    (hidx : MAX_DEPOSITS ≤ idx) (htd : amt ≤ st.total_deposited) :
    process_withdrawal st idx amt =
      some { st with total_deposited := st.total_deposited - amt } := by
  rw [MAX_DEPOSITS] at hidx
  simp only [process_withdrawal, if_neg (by omega : ¬ 0 = idx),
    if_neg (by omega : ¬ 1 = idx), Option.some_bind, sub64_pos htd]

/-- C10 witness: a withdrawal of 30 at the out-of-range index 5 leaves
both slots and deposit_count of the sample state intact while dropping
total_deposited from 100 to 70. -/
theorem out_of_range_withdrawal_spec_witness :
    process_withdrawal sampleState 5 30 =
      some { sampleState with total_deposited := 70 } :=
  (out_of_range_withdrawal_spec sampleState 5 30 (by decide)
    (by decide)).trans (by decide)
